import Mathlib

/-!
Shallow embedding of `backend/data/collectors/aemo_nemweb_scraper.py`
(class `AEMONEMWebScraper`): the dispatch-table price extractor
`extract_price_data` and the decision logic of `scrape_current_prices`.

Python `dict` values are modelled as association lists kept in insertion
order; Python `float` values as exact rationals; a Python exception that
escapes is modelled by `Except.error`.
-/

/-- Error raised by an out-of-range positional access `row[i]`
(Python `IndexError`). -/
inductive PyError where
  | indexError
deriving DecidableEq

deriving instance DecidableEq for Except

/-- One CSV record: an ordered sequence of string fields. -/
abbrev Row := List String

/-- The price dictionary `price_data`: keys in insertion order, as a
Python dict. -/
abbrev PriceMap := List (String × Rat)

/-- The tracked-region list literal of line 104 of the source:
`['NSW1', 'VIC1', 'QLD1', 'SA1', 'TAS1']`. -/
def trackedRegions : List String := ["NSW1", "VIC1", "QLD1", "SA1", "TAS1"]

/-- Value of a digit string (most significant first). -/
def digitsVal (l : List Char) : Nat :=
  l.foldl (fun a c => 10 * a + (c.toNat - 48)) 0

/-- Model of Python `float(s)` restricted to plain decimal numerals: an
optional sign followed by digits with an optional decimal point, read as
an exact rational.  Exponents, `inf`/`nan`, underscores and surrounding
whitespace do not occur in the dispatch files of interest and are
rejected.  `none` models `float` raising `ValueError`. -/
def pyFloat (s : String) : Option Rat :=
  let (sign, body) :=
    match s.toList with
    | '-' :: cs => ((-1 : Int), cs)
    | '+' :: cs => ((1 : Int), cs)
    | cs => ((1 : Int), cs)
  let ip := body.takeWhile Char.isDigit
  let rest := body.dropWhile Char.isDigit
  match rest with
  | [] => if ip = [] then none else some (mkRat (sign * (digitsVal ip : Int)) 1)
  | '.' :: rest2 =>
    let fp := rest2.takeWhile Char.isDigit
    if rest2.dropWhile Char.isDigit = [] ∧ (ip ≠ [] ∨ fp ≠ []) then
      some (mkRat (sign * ((digitsVal ip * 10 ^ fp.length + digitsVal fp : Nat) : Int))
        (10 ^ fp.length))
    else none
  | _ => none

/-- Split a character list at every occurrence of `sep`. -/
def splitFields (sep : Char) : List Char → List (List Char)
  | [] => [[]]
  | c :: cs =>
    match splitFields sep cs with
    | [] => if c = sep then [[], []] else [[c]]
    | f :: fs => if c = sep then [] :: f :: fs else (c :: f) :: fs

/-- Model of `list(csv.reader(io.StringIO(content)))`: newline-separated
records with comma-separated fields.  The dispatch files of interest use
no CSV quoting or escaping, so plain splitting is faithful on them.  An
empty line yields the empty record, as `csv.reader` does; a spurious
trailing empty record (after a final newline) is harmless because the
scan loop skips empty rows. -/
def csvRows (s : String) : List Row :=
  (splitFields '\n' s.toList).map fun line =>
    if line = [] then ([] : Row) else (splitFields ',' line).map (fun f => String.mk f)

/-- The dict assignment `price_data[region] = price_value`: overwrite in
place when the key is present, append otherwise (Python dicts keep
insertion order). -/
def updateMap : PriceMap → String → Rat → PriceMap
  | [], k, v => [(k, v)]
  | (k', v') :: rest, k, v =>
    if k' = k then (k, v) :: rest else (k', v') :: updateMap rest k v

/-- Dict lookup on the association-list model. -/
def lookupMap : PriceMap → String → Option Rat
  | [], _ => none
  | (k', v') :: rest, k => if k' = k then some v' else lookupMap rest k

/-- One iteration of the `for row in rows` loop of
`AEMONEMWebScraper.extract_price_data` (lines 88-114), acting on the
state `(in_price_section, price_data)`.  The three guarded branches are,
in source order: the header test activating the PRICE section, the data
branch recording a tracked region's price (`ValueError` from `float` is
caught and skips the row; the local variables `region` and `price` of
lines 101-102 are inlined), and the `elif` that leaves the section on an
`I` row whose third field differs from `PRICE` — that `elif` reads
`row[2]` without a length guard, so an `I` row with fewer than three
fields reaching it raises `IndexError`. -/
def stepRow (inPrice : Bool) (pd : PriceMap) (row : Row) : Except PyError (Bool × PriceMap) :=
  if row.length > 0 then
    if row.length > 2 ∧ row.get? 1 = some "DISPATCH" ∧ row.get? 2 = some "PRICE"
        ∧ row.get? 0 = some "I" then
      .ok (true, pd)
    else if inPrice ∧ row.get? 0 = some "D" ∧ row.length > 9 then
      if (row.get? 6).getD "" ≠ "" ∧ (row.get? 9).getD "" ≠ ""
          ∧ (row.get? 6).getD "" ∈ trackedRegions then
        match pyFloat ((row.get? 9).getD "") with
        | some v => .ok (inPrice, updateMap pd ((row.get? 6).getD "") v)
        | none => .ok (inPrice, pd)
      else .ok (inPrice, pd)
    else if inPrice ∧ row.get? 0 = some "I" then
      match row.get? 2 with
      | some t => if t ≠ "PRICE" then .ok (false, pd) else .ok (inPrice, pd)
      | none => .error .indexError
    else .ok (inPrice, pd)
  else .ok (inPrice, pd)

/-- The whole row scan of `extract_price_data`, folding `stepRow` over
the record list from the initial state. -/
def scanRows : List Row → Bool → PriceMap → Except PyError PriceMap
  | [], _, pd => .ok pd
  | row :: rest, inPrice, pd =>
    match stepRow inPrice pd row with
    | .ok (b, pd') => scanRows rest b pd'
    | .error e => .error e

/-- `AEMONEMWebScraper.extract_price_data(content)` (lines 74-116).
`none` models the Python argument `None`; the `if not content` guard
returns the empty dict for `None` and for the empty string. -/
def extract_price_data (content : Option String) : Except PyError PriceMap :=
  match content with
  | none => .ok []
  | some c => if c = "" then .ok [] else scanRows (csvRows c) false []

/-- Result record of `scrape_current_prices`: the region-price entries
plus the `source` and `data_quality` keys the method adds.  The
wall-clock `timestamp` key is omitted from the model. -/
structure ScrapeResult where
  prices : PriceMap
  source : String
  data_quality : String
deriving DecidableEq

/-- The hard-coded fallback dict of lines 145-154: five zero-valued
region entries under the short region names, with quality UNAVAILABLE. -/
def fallbackResult : ScrapeResult :=
  ⟨[("NSW", 0), ("VIC", 0), ("QLD", 0), ("SA", 0), ("TAS", 0)], "AEMO NEMWeb", "UNAVAILABLE"⟩

/-- `AEMONEMWebScraper.scrape_current_prices` (lines 118-154), modelled
as a function of the single downloaded file content
(`get_latest_dispatch_files` yields exactly one URL, and
`download_and_extract_file` returning `None` is the `none` case).  A
truthy content whose extraction yields a non-empty dict is returned with
quality REAL; otherwise the fallback dict is returned. -/
def scrape_current_prices (content : Option String) : Except PyError ScrapeResult :=
  match content with
  | none => .ok fallbackResult
  | some c =>
    if c = "" then .ok fallbackResult
    else
      match extract_price_data (some c) with
      | .error e => .error e
      | .ok pd => if pd = [] then .ok fallbackResult else .ok ⟨pd, "AEMO NEMWeb", "REAL"⟩

/-- A row that activates the PRICE section: an `I` header row with
category `DISPATCH` and table name `PRICE` (the presence of field 2
already forces at least three fields). -/
def isActivation (row : Row) : Prop :=
  row.get? 0 = some "I" ∧ row.get? 1 = some "DISPATCH" ∧ row.get? 2 = some "PRICE"

instance (row : Row) : Decidable (isActivation row) := by
  unfold isActivation; infer_instance

/-- Positional access that returns a value is in range. -/
theorem get?_some_lt {α : Type} {l : List α} {n : Nat} {a : α} (h : l.get? n = some a) :
    n < l.length := by
  by_contra hn
  push_neg at hn
  rw [List.get?_eq_none.mpr hn] at h
  cases h

/-- A tracked region code is a non-empty string. -/
theorem tracked_ne_empty {r : String} (h : r ∈ trackedRegions) : r ≠ "" := by
  simp only [trackedRegions, List.mem_cons, List.not_mem_nil, or_false] at h
  rcases h with rfl | rfl | rfl | rfl | rfl <;> decide

/-- The float model rejects the empty string, as Python `float("")`
raises `ValueError`. -/
theorem pyFloat_empty : pyFloat "" = none := rfl

/-- A string accepted by the float model is non-empty. -/
theorem pyFloat_some_ne_empty {p : String} {v : Rat} (h : pyFloat p = some v) : p ≠ "" := by
  intro hp
  rw [hp, pyFloat_empty] at h
  cases h

/-- Membership in the updated dict comes from the inserted key or from
the original dict. -/
theorem mem_updateMap {pd : PriceMap} {r k : String} {w v : Rat}
    (h : (k, v) ∈ updateMap pd r w) : k = r ∨ (k, v) ∈ pd := by
  induction pd with
  | nil =>
    simp only [updateMap, List.mem_singleton] at h
    exact Or.inl (congrArg Prod.fst h)
  | cons hd tl ih =>
    obtain ⟨k', v'⟩ := hd
    simp only [updateMap] at h
    by_cases hk : k' = r
    · rw [if_pos hk] at h
      rcases List.mem_cons.mp h with h | h
      · exact Or.inl (congrArg Prod.fst h)
      · exact Or.inr (List.mem_cons_of_mem _ h)
    · rw [if_neg hk] at h
      rcases List.mem_cons.mp h with h | h
      · exact Or.inr (h ▸ List.mem_cons_self _ _)
      · rcases ih h with h | h
        · exact Or.inl h
        · exact Or.inr (List.mem_cons_of_mem _ h)

/-- A key of the updated dict is the inserted key or a key of the
original dict. -/
theorem mem_keys_updateMap {pd : PriceMap} {r k : String} {w : Rat}
    (h : k ∈ (updateMap pd r w).map Prod.fst) : k = r ∨ k ∈ pd.map Prod.fst := by
  rcases List.mem_map.mp h with ⟨⟨k', v'⟩, hmem, hk⟩
  cases hk
  rcases mem_updateMap hmem with h | h
  · exact Or.inl h
  · exact Or.inr (List.mem_map.mpr ⟨(k', v'), h, rfl⟩)

/-- Dict assignment keeps keys without duplicates. -/
theorem nodup_keys_updateMap {pd : PriceMap} {r : String} {w : Rat}
    (h : (pd.map Prod.fst).Nodup) : ((updateMap pd r w).map Prod.fst).Nodup := by
  induction pd with
  | nil => simp [updateMap]
  | cons hd tl ih =>
    obtain ⟨k', v'⟩ := hd
    simp only [List.map_cons, List.nodup_cons] at h
    obtain ⟨hk', htl⟩ := h
    simp only [updateMap]
    by_cases hk : k' = r
    · subst hk
      rw [if_pos rfl]
      simp only [List.map_cons, List.nodup_cons]
      exact ⟨hk', htl⟩
    · rw [if_neg hk]
      simp only [List.map_cons, List.nodup_cons]
      refine ⟨fun hmem => ?_, ih htl⟩
      rcases mem_keys_updateMap hmem with h | h
      · exact hk h
      · exact hk' h

/-- Looking up the key just assigned returns the assigned value. -/
theorem lookupMap_updateMap_self (pd : PriceMap) (r : String) (v : Rat) :
    lookupMap (updateMap pd r v) r = some v := by
  induction pd with
  | nil => simp [updateMap, lookupMap]
  | cons hd tl ih =>
    obtain ⟨k', v'⟩ := hd
    simp only [updateMap]
    by_cases hk : k' = r
    · subst hk
      rw [if_pos rfl]
      simp [lookupMap]
    · rw [if_neg hk]
      simp only [lookupMap, if_neg hk]
      exact ih

/-- Assigning a different key does not change a lookup. -/
theorem lookupMap_updateMap_ne {pd : PriceMap} {r' r : String} (v : Rat) (h : r' ≠ r) :
    lookupMap (updateMap pd r' v) r = lookupMap pd r := by
  induction pd with
  | nil => simp [updateMap, lookupMap, h]
  | cons hd tl ih =>
    obtain ⟨k', v'⟩ := hd
    simp only [updateMap]
    by_cases hk : k' = r'
    · subst hk
      simp [lookupMap, h]
    · rw [if_neg hk]
      simp only [lookupMap]
      by_cases hkr : k' = r
      · simp [hkr]
      · simp only [if_neg hkr]
        exact ih

/-- An activating header row sets the section flag, whatever the
previous state, and records nothing. -/
theorem stepRow_activation {row : Row} (b : Bool) (pd : PriceMap) (h : isActivation row) :
    stepRow b pd row = .ok (true, pd) := by
  obtain ⟨h0, h1, h2⟩ := h
  unfold stepRow
  rw [if_pos (get?_some_lt h0), if_pos ⟨get?_some_lt h2, h1, h2, h0⟩]

/-- With the section flag off, any non-activating row leaves the state
unchanged. -/
theorem stepRow_inactive {row : Row} (pd : PriceMap) (h : ¬ isActivation row) :
    stepRow false pd row = .ok (false, pd) := by
  unfold stepRow
  by_cases hlen : row.length > 0
  · rw [if_pos hlen]
    rw [if_neg (fun hact => h ⟨hact.2.2.2, hact.2.1, hact.2.2.1⟩)]
    rw [if_neg (fun hd => Bool.false_ne_true hd.1)]
    rw [if_neg (fun hd => Bool.false_ne_true hd.1)]
  · rw [if_neg hlen]

/-- With the section flag on, a `D` row with enough fields, a tracked
region code at offset 6 and a parseable price at offset 9 performs the
dict assignment for that region. -/
theorem stepRow_record {row : Row} {r p : String} {v : Rat} (pd : PriceMap)
    (h0 : row.get? 0 = some "D") (hlen : row.length > 9)
    (h6 : row.get? 6 = some r) (h9 : row.get? 9 = some p)
    (hr : r ∈ trackedRegions) (hp : pyFloat p = some v) :
    stepRow true pd row = .ok (true, updateMap pd r v) := by
  unfold stepRow
  rw [if_pos (get?_some_lt h0)]
  rw [if_neg (fun hact => absurd (h0.symm.trans hact.2.2.2) (by decide))]
  rw [if_pos ⟨rfl, h0, hlen⟩]
  simp only [h6, h9, Option.getD_some]
  rw [if_pos ⟨tracked_ne_empty hr, pyFloat_some_ne_empty hp, hr⟩, hp]

/-- With the section flag on, a `D` row with enough fields whose price
field fails the float conversion leaves the state unchanged (the
`ValueError` is caught). -/
theorem stepRow_skip_badprice {row : Row} {p : String} (pd : PriceMap)
    (h0 : row.get? 0 = some "D") (hlen : row.length > 9)
    (h9 : row.get? 9 = some p) (hp : pyFloat p = none) :
    stepRow true pd row = .ok (true, pd) := by
  unfold stepRow
  rw [if_pos (get?_some_lt h0)]
  rw [if_neg (fun hact => absurd (h0.symm.trans hact.2.2.2) (by decide))]
  rw [if_pos ⟨rfl, h0, hlen⟩]
  simp only [h9, Option.getD_some]
  by_cases hg : (row.get? 6).getD "" ≠ "" ∧ p ≠ "" ∧ (row.get? 6).getD "" ∈ trackedRegions
  · rw [if_pos hg, hp]
  · rw [if_neg hg]

/-- With the section flag on, a `D` row with enough fields whose region
field or price field is the empty string leaves the state unchanged. -/
theorem stepRow_skip_emptyfield {row : Row} (pd : PriceMap)
    (h0 : row.get? 0 = some "D") (hlen : row.length > 9)
    (h : row.get? 6 = some "" ∨ row.get? 9 = some "") :
    stepRow true pd row = .ok (true, pd) := by
  unfold stepRow
  rw [if_pos (get?_some_lt h0)]
  rw [if_neg (fun hact => absurd (h0.symm.trans hact.2.2.2) (by decide))]
  rw [if_pos ⟨rfl, h0, hlen⟩]
  rcases h with h | h
  · rw [if_neg (fun hg => hg.1 (by rw [h]; rfl))]
  · rw [if_neg (fun hg => hg.2.1 (by rw [h]; rfl))]

/-- With the section flag on, an `I` row whose third field exists and
differs from `PRICE` clears the flag and records nothing. -/
theorem stepRow_deactivate {row : Row} {t : String} (pd : PriceMap)
    (h0 : row.get? 0 = some "I") (h2 : row.get? 2 = some t) (ht : t ≠ "PRICE") :
    stepRow true pd row = .ok (false, pd) := by
  unfold stepRow
  rw [if_pos (get?_some_lt h0)]
  rw [if_neg (fun hact => ht (Option.some.injEq .. ▸ (h2.symm.trans hact.2.2.1 : some t = some "PRICE")))]
  rw [if_neg (fun hd => absurd (h0.symm.trans hd.2.1) (by decide))]
  rw [if_pos ⟨rfl, h0⟩, h2]
  simp [ht]

/-- With the section flag on, an `I` row whose third field is `PRICE`
but whose category field is not `DISPATCH` leaves the flag on: the exit
test of line 113 consults only the table-name field. -/
theorem stepRow_keep_price_header {row : Row} (pd : PriceMap)
    (h0 : row.get? 0 = some "I") (h2 : row.get? 2 = some "PRICE")
    (h : ¬ isActivation row) :
    stepRow true pd row = .ok (true, pd) := by
  unfold stepRow
  rw [if_pos (get?_some_lt h0)]
  rw [if_neg (fun hact => h ⟨hact.2.2.2, hact.2.1, hact.2.2.1⟩)]
  rw [if_neg (fun hd => absurd (h0.symm.trans hd.2.1) (by decide))]
  rw [if_pos ⟨rfl, h0⟩, h2]
  simp

/-- With the section flag on, an `I` row with fewer than three fields
reaches the unguarded `row[2]` access and raises `IndexError`. -/
theorem stepRow_short_header {row : Row} (pd : PriceMap)
    (h0 : row.get? 0 = some "I") (h2 : row.get? 2 = none) :
    stepRow true pd row = .error .indexError := by
  unfold stepRow
  rw [if_pos (get?_some_lt h0)]
  rw [if_neg (fun hact => absurd (h2.symm.trans hact.2.2.1) (by simp))]
  rw [if_neg (fun hd => absurd (h0.symm.trans hd.2.1) (by decide))]
  rw [if_pos ⟨rfl, h0⟩, h2]

/-- Case analysis on a successful step: the dict either stays or gets
one tracked region assigned, and that region sits at offset 6 of a `D`
row with more than nine fields. -/
theorem stepRow_ok_cases {b b' : Bool} {pd pd' : PriceMap} {row : Row}
    (h : stepRow b pd row = .ok (b', pd')) :
    pd' = pd ∨ ∃ r v, r ∈ trackedRegions ∧ row.get? 0 = some "D" ∧ row.length > 9 ∧
      row.get? 6 = some r ∧ pd' = updateMap pd r v := by
  have hok : ∀ {x : Bool × PriceMap},
      (Except.ok x : Except PyError (Bool × PriceMap)) = .ok (b', pd') → pd' = x.2 :=
    fun hx => (congrArg Prod.snd (Except.ok.inj hx)).symm
  unfold stepRow at h
  split at h
  case isFalse => exact Or.inl (hok h)
  split at h
  case isTrue => exact Or.inl (hok h)
  split at h
  case isFalse =>
    split at h
    case isFalse => exact Or.inl (hok h)
    split at h
    case h_2 => cases h
    split at h
    · exact Or.inl (hok h)
    · exact Or.inl (hok h)
  case isTrue hd =>
    obtain ⟨hb, h0, hlen⟩ := hd
    split at h
    case isFalse => exact Or.inl (hok h)
    case isTrue hg =>
      split at h
      case h_2 => exact Or.inl (hok h)
      case h_1 v heq =>
        refine Or.inr ⟨(row.get? 6).getD "", v, hg.2.2, h0, hlen, ?_, hok h⟩
        have h6 : 6 < row.length := by omega
        rw [List.get?_eq_get h6]
        rfl

/-- A scan started with the flag off over rows none of which is an
activating header records nothing and raises nothing. -/
theorem scanRows_inactive {l : List Row} : ∀ {pd : PriceMap},
    (∀ row ∈ l, ¬ isActivation row) → scanRows l false pd = .ok pd := by
  induction l with
  | nil => intro pd _; rfl
  | cons row rest ih =>
    intro pd h
    simp only [scanRows, stepRow_inactive pd (h row (List.mem_cons_self _ _))]
    exact ih (fun r hr => h r (List.mem_cons_of_mem _ hr))

/-- Stepping a successful scan one row at a time. -/
theorem scanRows_cons {row : Row} {rest : List Row} {b b' : Bool} {pd pd' : PriceMap}
    (h : stepRow b pd row = .ok (b', pd')) :
    scanRows (row :: rest) b pd = scanRows rest b' pd' := by
  simp only [scanRows, h]

/-- Every key a scan adds to the dict is a tracked region code. -/
theorem scanRows_keys_sub {l : List Row} : ∀ {b : Bool} {pd m : PriceMap},
    scanRows l b pd = .ok m → ∀ k ∈ m.map Prod.fst,
      k ∈ pd.map Prod.fst ∨ k ∈ trackedRegions := by
  induction l with
  | nil =>
    intro b pd m h k hk
    injection h with h
    subst h
    exact Or.inl hk
  | cons row rest ih =>
    intro b pd m h k hk
    simp only [scanRows] at h
    cases hstep : stepRow b pd row with
    | error e => rw [hstep] at h; cases h
    | ok s =>
      obtain ⟨b', pd'⟩ := s
      rw [hstep] at h
      rcases stepRow_ok_cases hstep with hpd | ⟨r, v, hr, -, -, -, hpd⟩
      · subst hpd; exact ih h k hk
      · subst hpd
        rcases ih h k hk with hk' | hk'
        · rcases mem_keys_updateMap hk' with rfl | hk''
          · exact Or.inr hr
          · exact Or.inl hk''
        · exact Or.inr hk'

/-- A scan never duplicates a key of the dict. -/
theorem scanRows_nodup_keys {l : List Row} : ∀ {b : Bool} {pd m : PriceMap},
    (pd.map Prod.fst).Nodup → scanRows l b pd = .ok m → (m.map Prod.fst).Nodup := by
  induction l with
  | nil =>
    intro b pd m hnd h
    injection h with h
    subst h
    exact hnd
  | cons row rest ih =>
    intro b pd m hnd h
    simp only [scanRows] at h
    cases hstep : stepRow b pd row with
    | error e => rw [hstep] at h; cases h
    | ok s =>
      obtain ⟨b', pd'⟩ := s
      rw [hstep] at h
      rcases stepRow_ok_cases hstep with hpd | ⟨r, v, -, -, -, -, hpd⟩
      · subst hpd; exact ih hnd h
      · subst hpd; exact ih (nodup_keys_updateMap hnd) h

/-- A scan over rows none of which is a `D` row (with more than nine
fields) carrying region code `r` at offset 6 does not change the entry
stored for `r`. -/
theorem scanRows_lookup_preserved {r : String} {l : List Row} : ∀ {b : Bool} {pd m : PriceMap},
    (∀ row ∈ l, ¬ (row.get? 0 = some "D" ∧ row.length > 9 ∧ row.get? 6 = some r)) →
    scanRows l b pd = .ok m → lookupMap m r = lookupMap pd r := by
  induction l with
  | nil =>
    intro b pd m _ h
    injection h with h
    subst h
    rfl
  | cons row rest ih =>
    intro b pd m hl h
    simp only [scanRows] at h
    cases hstep : stepRow b pd row with
    | error e => rw [hstep] at h; cases h
    | ok s =>
      obtain ⟨b', pd'⟩ := s
      rw [hstep] at h
      have hrest := fun row hr => hl row (List.mem_cons_of_mem _ hr)
      rcases stepRow_ok_cases hstep with hpd | ⟨r', v, -, h0, hlen, h6, hpd⟩
      · subst hpd; exact ih hrest h
      · subst hpd
        have hne : r' ≠ r := by
          intro hr'
          exact hl row (List.mem_cons_self _ _) ⟨h0, hlen, hr' ▸ h6⟩
        rw [ih hrest h, lookupMap_updateMap_ne v hne]

/-- C1, as stated, fails on the code: after the `(DISPATCH, PRICE)`
header, the `I` row `I,OTHER,PRICE,4` has a table-name field equal to
`PRICE` but a category field different from `DISPATCH`, yet the
following `D` row is still recorded, because the exit test of line 113
compares only the table-name field. -/
theorem C1_counterexample :
    extract_price_data
      (some "I,DISPATCH,PRICE,4\nI,OTHER,PRICE,4\nD,DISPATCH,PRICE,1,ts,1,NSW1,1,1,50.5")
      = .ok [("NSW1", mkRat 505 10)] := by decide

/-- C1 (amended): once active, the PRICE table stays active until
end-of-file or the next `I` row whose table-name field (index 2) exists
and differs from `PRICE`; after such an `I` row, subsequent `D` rows are
not recorded (absent a reactivating header), but an `I` row whose
table-name field is `PRICE` leaves the table active even when its
category field is not `DISPATCH`. -/
theorem C1_amended_deactivation :
    (∀ (d : Row) (suf : List Row) (pd : PriceMap) (t : String),
        d.get? 0 = some "I" → d.get? 2 = some t → t ≠ "PRICE" →
        (∀ r ∈ suf, ¬ isActivation r) →
        scanRows (d :: suf) true pd = .ok pd) ∧
    (∀ (row : Row) (pd : PriceMap),
        row.get? 0 = some "I" → row.get? 2 = some "PRICE" → ¬ isActivation row →
        stepRow true pd row = .ok (true, pd)) := by
  constructor
  · intro d suf pd t h0 h2 ht hsuf
    rw [scanRows_cons (stepRow_deactivate pd h0 h2 ht)]
    exact scanRows_inactive hsuf
  · intro row pd h0 h2 h
    exact stepRow_keep_price_header pd h0 h2 h

/-- Witness for the amended C1: a deactivating `I` row followed by a
well-shaped `D` row records nothing, and an `I` row with table name
`PRICE` under category `OTHER` keeps the section flag on. -/
theorem C1_amended_witness :
    scanRows [["I", "X", "OTHER"], ["D", "DISPATCH", "PRICE", "1", "ts", "1", "NSW1", "1", "1", "50.5"]]
        true [("QLD1", 1)] = .ok [("QLD1", 1)]
    ∧ stepRow true [] ["I", "OTHER", "PRICE", "4"] = .ok (true, []) :=
  ⟨C1_amended_deactivation.1 _ _ _ "OTHER" (by decide) (by decide) (by decide) (by decide),
   C1_amended_deactivation.2 _ _ (by decide) (by decide) (by decide)⟩

/-- C2: the claimed totality fails on the code: on this content the
PRICE table is active when the two-field row `I,X` arrives, the exit
test evaluates `row[2]` unguarded, and `IndexError` escapes. -/
theorem C2_short_header_raises :
    extract_price_data (some "I,DISPATCH,PRICE,4\nI,X") = .error .indexError := by decide

/-- C3, as stated, fails on the code: with no `(DISPATCH, PRICE)` header
the extractor does return the empty dict, but `scrape_current_prices`
hands the caller five zero-valued entries under the short region names
rather than an empty map. -/
theorem C3_counterexample :
    extract_price_data (some "C,HELLO\nD,DISPATCH,OTHER,1,ts,1,NSW1,1,1,50") = .ok []
    ∧ scrape_current_prices (some "C,HELLO\nD,DISPATCH,OTHER,1,ts,1,NSW1,1,1,50")
        = .ok fallbackResult
    ∧ fallbackResult.prices = [("NSW", 0), ("VIC", 0), ("QLD", 0), ("SA", 0), ("TAS", 0)] :=
  ⟨by decide, by decide, rfl⟩

/-- C3 (amended): for every input with no `I` row matching
`(DISPATCH, PRICE)`, extraction records zero regions and returns the
empty map, and the result `scrape_current_prices` hands the caller is
the fallback: quality UNAVAILABLE with five zero-valued entries under
the keys NSW, VIC, QLD, SA, TAS — not an empty map. -/
theorem C3_amended_no_table_unavailable (c : String)
    (h : ∀ row ∈ csvRows c, ¬ isActivation row) :
    extract_price_data (some c) = .ok []
    ∧ scrape_current_prices (some c) = .ok fallbackResult := by
  have hext : extract_price_data (some c) = .ok [] := by
    simp only [extract_price_data]
    by_cases hc : c = ""
    · rw [if_pos hc]
    · rw [if_neg hc]
      exact scanRows_inactive h
  refine ⟨hext, ?_⟩
  simp only [scrape_current_prices]
  by_cases hc : c = ""
  · rw [if_pos hc]
  · rw [if_neg hc, hext]
    rfl

/-- Witness for the amended C3 on a concrete headerless content. -/
theorem C3_amended_witness :
    extract_price_data (some "C,HELLO\nD,DISPATCH,OTHER,1,ts,1,NSW1,1,1,50.0") = .ok []
    ∧ scrape_current_prices (some "C,HELLO\nD,DISPATCH,OTHER,1,ts,1,NSW1,1,1,50.0")
        = .ok fallbackResult :=
  C3_amended_no_table_unavailable _ (by decide)

/-- C4: an input whose records are a well-formed `(DISPATCH, PRICE)`
header followed by valid `D` rows (more than nine fields, a parseable
price at offset 9) covering the five tracked regions yields all five
prices, and the scrape result carries quality REAL with exactly the
extracted entries — no synthesized zeros. -/
theorem C4_full_coverage_real (c : String) (hdr d1 d2 d3 d4 d5 : Row)
    (p1 p2 p3 p4 p5 : String) (v1 v2 v3 v4 v5 : Rat)
    (hsplit : csvRows c = [hdr, d1, d2, d3, d4, d5])
    (hhdr : isActivation hdr)
    (h1 : d1.get? 0 = some "D" ∧ d1.length > 9 ∧ d1.get? 6 = some "NSW1" ∧ d1.get? 9 = some p1)
    (h2 : d2.get? 0 = some "D" ∧ d2.length > 9 ∧ d2.get? 6 = some "VIC1" ∧ d2.get? 9 = some p2)
    (h3 : d3.get? 0 = some "D" ∧ d3.length > 9 ∧ d3.get? 6 = some "QLD1" ∧ d3.get? 9 = some p3)
    (h4 : d4.get? 0 = some "D" ∧ d4.length > 9 ∧ d4.get? 6 = some "SA1" ∧ d4.get? 9 = some p4)
    (h5 : d5.get? 0 = some "D" ∧ d5.length > 9 ∧ d5.get? 6 = some "TAS1" ∧ d5.get? 9 = some p5)
    (hp1 : pyFloat p1 = some v1) (hp2 : pyFloat p2 = some v2) (hp3 : pyFloat p3 = some v3)
    (hp4 : pyFloat p4 = some v4) (hp5 : pyFloat p5 = some v5) :
    extract_price_data (some c)
      = .ok [("NSW1", v1), ("VIC1", v2), ("QLD1", v3), ("SA1", v4), ("TAS1", v5)]
    ∧ scrape_current_prices (some c)
      = .ok ⟨[("NSW1", v1), ("VIC1", v2), ("QLD1", v3), ("SA1", v4), ("TAS1", v5)],
          "AEMO NEMWeb", "REAL"⟩ := by
  have hc : c ≠ "" := by
    intro hceq
    subst hceq
    have h : ([[]] : List Row) = [hdr, d1, d2, d3, d4, d5] := hsplit
    injection h with h1 h2
    exact List.noConfusion h2
  have hext : extract_price_data (some c)
      = .ok [("NSW1", v1), ("VIC1", v2), ("QLD1", v3), ("SA1", v4), ("TAS1", v5)] := by
    simp only [extract_price_data]
    rw [if_neg hc, hsplit]
    rw [scanRows_cons (stepRow_activation false [] hhdr)]
    rw [scanRows_cons (stepRow_record _ h1.1 h1.2.1 h1.2.2.1 h1.2.2.2 (by decide) hp1)]
    rw [scanRows_cons (stepRow_record _ h2.1 h2.2.1 h2.2.2.1 h2.2.2.2 (by decide) hp2)]
    rw [scanRows_cons (stepRow_record _ h3.1 h3.2.1 h3.2.2.1 h3.2.2.2 (by decide) hp3)]
    rw [scanRows_cons (stepRow_record _ h4.1 h4.2.1 h4.2.2.1 h4.2.2.2 (by decide) hp4)]
    rw [scanRows_cons (stepRow_record _ h5.1 h5.2.1 h5.2.2.1 h5.2.2.2 (by decide) hp5)]
    rfl
  refine ⟨hext, ?_⟩
  simp only [scrape_current_prices]
  rw [if_neg hc, hext]
  rfl

set_option maxRecDepth 8192 in
/-- Witness for C4 on a concrete six-record dispatch content covering
the five tracked regions. -/
theorem C4_witness :
    extract_price_data
      (some "I,DISPATCH,PRICE,4\nD,DISPATCH,PRICE,1,ts,1,NSW1,1,1,95.43\nD,DISPATCH,PRICE,1,ts,1,VIC1,1,1,88.2\nD,DISPATCH,PRICE,1,ts,1,QLD1,1,1,76.01\nD,DISPATCH,PRICE,1,ts,1,SA1,1,1,120.5\nD,DISPATCH,PRICE,1,ts,1,TAS1,1,1,60")
      = .ok [("NSW1", mkRat 9543 100), ("VIC1", mkRat 882 10), ("QLD1", mkRat 7601 100),
          ("SA1", mkRat 1205 10), ("TAS1", mkRat 60 1)]
    ∧ scrape_current_prices
      (some "I,DISPATCH,PRICE,4\nD,DISPATCH,PRICE,1,ts,1,NSW1,1,1,95.43\nD,DISPATCH,PRICE,1,ts,1,VIC1,1,1,88.2\nD,DISPATCH,PRICE,1,ts,1,QLD1,1,1,76.01\nD,DISPATCH,PRICE,1,ts,1,SA1,1,1,120.5\nD,DISPATCH,PRICE,1,ts,1,TAS1,1,1,60")
      = .ok ⟨[("NSW1", mkRat 9543 100), ("VIC1", mkRat 882 10), ("QLD1", mkRat 7601 100),
          ("SA1", mkRat 1205 10), ("TAS1", mkRat 60 1)], "AEMO NEMWeb", "REAL"⟩ :=
  C4_full_coverage_real _
    ["I", "DISPATCH", "PRICE", "4"]
    ["D", "DISPATCH", "PRICE", "1", "ts", "1", "NSW1", "1", "1", "95.43"]
    ["D", "DISPATCH", "PRICE", "1", "ts", "1", "VIC1", "1", "1", "88.2"]
    ["D", "DISPATCH", "PRICE", "1", "ts", "1", "QLD1", "1", "1", "76.01"]
    ["D", "DISPATCH", "PRICE", "1", "ts", "1", "SA1", "1", "1", "120.5"]
    ["D", "DISPATCH", "PRICE", "1", "ts", "1", "TAS1", "1", "1", "60"]
    "95.43" "88.2" "76.01" "120.5" "60" _ _ _ _ _
    (by decide) (by decide) (by decide) (by decide) (by decide) (by decide) (by decide)
    (by decide) (by decide) (by decide) (by decide) (by decide)

/-- C5: a `D` row inside the active PRICE table whose price field fails
numeric conversion is skipped: scanning it followed by the remaining
rows equals scanning the remaining rows alone, so subsequent valid rows
produce the same entries as if the bad row were absent. -/
theorem C5_nonnumeric_price_row_skipped (pd : PriceMap) (row : Row) (rest : List Row)
    (p : String) (h0 : row.get? 0 = some "D") (hlen : row.length > 9)
    (h9 : row.get? 9 = some p) (hp : pyFloat p = none) :
    scanRows (row :: rest) true pd = scanRows rest true pd :=
  scanRows_cons (stepRow_skip_badprice pd h0 hlen h9 hp)

/-- Witness for C5: a row with price text `abc` contributes nothing. -/
theorem C5_witness :
    scanRows [["D", "DISPATCH", "PRICE", "1", "ts", "1", "NSW1", "1", "1", "abc"],
        ["D", "DISPATCH", "PRICE", "1", "ts", "1", "VIC1", "1", "1", "7.5"]] true []
      = scanRows [["D", "DISPATCH", "PRICE", "1", "ts", "1", "VIC1", "1", "1", "7.5"]] true [] :=
  C5_nonnumeric_price_row_skipped [] _ _ "abc" (by decide) (by decide) (by decide) (by decide)

/-- C6: inside the active PRICE table a long-enough `D` row is read at
the fixed offsets — region at index 6, price at index 9, price parsed as
a decimal — and an entry is recorded only for tracked region codes;
consequently every key of any returned map is one of the five codes. -/
theorem C6_fixed_offsets_and_tracked_keys :
    (∀ (pd : PriceMap) (row : Row) (r p : String) (v : Rat),
        row.get? 0 = some "D" → row.length > 9 → row.get? 6 = some r →
        row.get? 9 = some p → r ∈ trackedRegions → pyFloat p = some v →
        stepRow true pd row = .ok (true, updateMap pd r v)) ∧
    (∀ (content : Option String) (m : PriceMap) (k : String) (v : Rat),
        extract_price_data content = .ok m → (k, v) ∈ m → k ∈ trackedRegions) := by
  constructor
  · intro pd row r p v h0 hlen h6 h9 hr hp
    exact stepRow_record pd h0 hlen h6 h9 hr hp
  · intro content m k v h hmem
    have hk : k ∈ m.map Prod.fst := List.mem_map.mpr ⟨(k, v), hmem, rfl⟩
    cases content with
    | none =>
      injection h with h
      subst h
      cases hmem
    | some c =>
      simp only [extract_price_data] at h
      by_cases hc : c = ""
      · rw [if_pos hc] at h
        injection h with h
        subst h
        cases hmem
      · rw [if_neg hc] at h
        rcases scanRows_keys_sub h k hk with h' | h'
        · cases h'
        · exact h'

/-- Witness for C6: a concrete recording step, and a tracked key of a
concrete extraction. -/
theorem C6_witness :
    stepRow true [] ["D", "DISPATCH", "PRICE", "1", "ts", "1", "NSW1", "1", "1", "2.5"]
        = .ok (true, [("NSW1", mkRat 25 10)])
    ∧ "NSW1" ∈ trackedRegions :=
  ⟨C6_fixed_offsets_and_tracked_keys.1 [] _ "NSW1" "2.5" (mkRat 25 10)
      (by decide) (by decide) (by decide) (by decide) (by decide) (by decide),
   C6_fixed_offsets_and_tracked_keys.2
      (some "I,DISPATCH,PRICE,4\nD,DISPATCH,PRICE,1,ts,1,NSW1,1,1,2.5")
      [("NSW1", mkRat 25 10)] "NSW1" (mkRat 25 10) (by decide) (by decide)⟩

/-- C7: every returned map has no duplicate region key, and when the
last `D` row able to record a region `r` assigns it value `v`, the
returned price for `r` is `v` — last write wins. -/
theorem C7_unique_keys_last_write_wins :
    (∀ (content : Option String) (m : PriceMap),
        extract_price_data content = .ok m → (m.map Prod.fst).Nodup) ∧
    (∀ (d : Row) (rest : List Row) (pd m : PriceMap) (r p : String) (v : Rat),
        d.get? 0 = some "D" → d.length > 9 → d.get? 6 = some r → d.get? 9 = some p →
        r ∈ trackedRegions → pyFloat p = some v →
        (∀ row ∈ rest, ¬ (row.get? 0 = some "D" ∧ row.length > 9 ∧ row.get? 6 = some r)) →
        scanRows (d :: rest) true pd = .ok m →
        lookupMap m r = some v) := by
  constructor
  · intro content m h
    cases content with
    | none =>
      injection h with h
      subst h
      exact List.nodup_nil
    | some c =>
      simp only [extract_price_data] at h
      by_cases hc : c = ""
      · rw [if_pos hc] at h
        injection h with h
        subst h
        exact List.nodup_nil
      · rw [if_neg hc] at h
        refine scanRows_nodup_keys ?_ h
        exact List.nodup_nil
  · intro d rest pd m r p v h0 hlen h6 h9 hr hp hrest h
    rw [scanRows_cons (stepRow_record pd h0 hlen h6 h9 hr hp)] at h
    rw [scanRows_lookup_preserved hrest h]
    exact lookupMap_updateMap_self pd r v

/-- Witness for C7: the extraction of a file with two `NSW1` rows has
unduplicated keys, and a scan ending with a second `NSW1` assignment
returns the second price. -/
theorem C7_witness :
    (([("NSW1", mkRat 205 10)] : PriceMap).map Prod.fst).Nodup
    ∧ lookupMap [("NSW1", mkRat 205 10)] "NSW1" = some (mkRat 205 10) :=
  ⟨C7_unique_keys_last_write_wins.1
      (some "I,DISPATCH,PRICE,4\nD,DISPATCH,PRICE,1,ts,1,NSW1,1,1,10.5\nD,DISPATCH,PRICE,1,ts,1,NSW1,1,1,20.5")
      [("NSW1", mkRat 205 10)] (by decide),
   C7_unique_keys_last_write_wins.2
      ["D", "DISPATCH", "PRICE", "1", "ts", "1", "NSW1", "1", "1", "20.5"] []
      [("NSW1", mkRat 105 10)] [("NSW1", mkRat 205 10)] "NSW1" "20.5" (mkRat 205 10)
      (by decide) (by decide) (by decide) (by decide) (by decide) (by decide)
      (by decide) (by decide)⟩

/-- C8: extraction is deterministic — its result is a function of the
content argument alone, so two runs on the same text agree. -/
theorem C8_deterministic (content : Option String) (m₁ m₂ : Except PyError PriceMap)
    (h₁ : extract_price_data content = m₁) (h₂ : extract_price_data content = m₂) :
    m₁ = m₂ := h₁ ▸ h₂

/-- Witness for C8 at a concrete content. -/
theorem C8_witness :
    (Except.ok [] : Except PyError PriceMap) = .ok [] :=
  C8_deterministic (some "abc") (.ok []) (.ok []) (by decide) (by decide)

/-- C9: a `None` or empty-string content argument returns the empty
dict at once, before any row is scanned. -/
theorem C9_empty_content :
    extract_price_data none = .ok [] ∧ extract_price_data (some "") = .ok [] :=
  ⟨rfl, rfl⟩

/-- C10: a `D` row inside the active PRICE table whose region field or
price field is the empty string contributes no entry even with enough
fields: the scan continues exactly as if the row were absent. -/
theorem C10_empty_field_row_skipped (pd : PriceMap) (row : Row) (rest : List Row)
    (h0 : row.get? 0 = some "D") (hlen : row.length > 9)
    (h : row.get? 6 = some "" ∨ row.get? 9 = some "") :
    scanRows (row :: rest) true pd = scanRows rest true pd :=
  scanRows_cons (stepRow_skip_emptyfield pd h0 hlen h)

/-- Witness for C10: a row with an empty region field is skipped. -/
theorem C10_witness :
    scanRows [["D", "DISPATCH", "PRICE", "1", "ts", "1", "", "1", "1", "5.0"],
        ["D", "DISPATCH", "PRICE", "1", "ts", "1", "TAS1", "1", "1", "7.5"]] true []
      = scanRows [["D", "DISPATCH", "PRICE", "1", "ts", "1", "TAS1", "1", "1", "7.5"]] true [] :=
  C10_empty_field_row_skipped [] _ _ (by decide) (by decide) (by decide)
